import Mathlib

/-!
# Verification development for the geomesh repository

Shallow embedding of the algorithmic core of the geomesh repository
(`geomesh/mesh.py`, `geomesh/hfun/raster.py`, `geomesh/geom/raster.py`)
together with theorems settling the specification claims.

Conventions of the embedding:
* machine floats are modelled as exact rationals (`ℚ`); a NaN entry of a
  per-vertex value array is modelled as `none` in `Option ℚ`;
* Python exceptions are modelled with `Option`/`Except`: a raised exception is
  `none` / `.error msg`;
* external collaborators (shapely area/length, matplotlib `Path.contains_point`)
  are parameters of the embedded functions;
* NumPy index arrays are modelled as `List Nat`, boolean masks as `List Bool`.
-/

/-! ## Size-field grader — `geomesh/hfun/raster.py` -/

/-- The per-cell unclamped candidate of one feature constraint:
`values = expansion_rate*target_size*distances + target_size`
(`HfunRaster.add_feature`, hfun/raster.py line 293). -/
def unclampedCandidate (expansion_rate target_size distance : ℚ) : ℚ :=
  expansion_rate * target_size * distance + target_size

/-- The clamping of a candidate value into the configured bounds, in the
code's order: first `values[np.where(values < self.hmin)] = self.hmin`,
then `values[np.where(values > self.hmax)] = self.hmax`
(hfun/raster.py lines 296–299). -/
def clampField (hmin hmax : Option ℚ) (v : ℚ) : ℚ :=
  let v1 := match hmin with
    | some m => if v < m then m else v
    | none => v
  match hmax with
  | some M => if v1 > M then M else v1
  | none => v1

/-- One merge step at a single cell:
`values = np.minimum(self.get_values(window=window), values)`
applied to the clamped candidate (hfun/raster.py line 300). -/
def applyFeature (hmin hmax : Option ℚ) (field cand : ℚ) : ℚ :=
  min field (clampField hmin hmax cand)

/-- The field at one cell after a sequence of `add_feature` merges, each given
by its unclamped candidate value at that cell. -/
def applyFeatures (hmin hmax : Option ℚ) (field : ℚ) (cands : List ℚ) : ℚ :=
  cands.foldl (applyFeature hmin hmax) field

/-- The initialization sentinel of the output raster:
`values[:] = np.finfo(np.float32).max` (`HfunInputRaster.__set__`,
hfun/raster.py line 53), i.e. `(2 - 2^-23)·2^127` as an exact rational. -/
def initialFieldValue : ℚ := 340282346638528859811704183484516925440

/-- `HfunRaster.add_feature` at a single cell, state-passing style: the
`target_size <= 0` validation (line 230) guards the computation; on success
the new field value is the min-merge of the candidates derived from the
per-cell nearest distances. A raised `ValueError` is `.error`; the object's
field is only replaced on success (`self._tmpfile = tmpfile` is the last
statement of the method). -/
def add_feature (hmin hmax : Option ℚ) (target_size expansion_rate : ℚ)
    (field : ℚ) (dists : List ℚ) : Except String ℚ :=
  if target_size ≤ 0 then
    Except.error "Argument target_size must be > 0."
  else
    Except.ok (applyFeatures hmin hmax field
      (dists.map (unclampedCandidate expansion_rate target_size)))

/-- Events observable during `add_contour`: reading raster contours
(`self._get_raster_contours(level)`, line 193) and committing the new field. -/
inductive RasterEvent
  | contourRead
  | fieldWrite
deriving DecidableEq, Repr

/-- `HfunRaster.add_contour` at a single cell (hfun/raster.py lines 176–198):
resolve `target_size` from the global `hmin` when absent, validate it, only
then read the raster contours; an empty contour set (`GeometryCollection`)
is a logged no-op; otherwise delegate to `add_feature`.  `contourDists` is
`none` when the level produces no contours, else the per-cell nearest
distances to the contour features.  The returned event list records which
I/O happened; an error carries no events. -/
def add_contour (hmin hmax : Option ℚ) (target_size? : Option ℚ)
    (expansion_rate : ℚ) (field : ℚ) (contourDists : Option (List ℚ)) :
    Except String (ℚ × List RasterEvent) :=
  let ts? := match target_size? with
    | none => hmin
    | some t => some t
  match ts? with
  | none => Except.error
      "Argument target_size must be specified if no global hmin has been set."
  | some ts =>
    if ts ≤ 0 then
      Except.error "Argument target_size must be greater than zero."
    else
      match contourDists with
      | none => Except.ok (field, [RasterEvent.contourRead])
      | some dists =>
        match add_feature hmin hmax ts expansion_rate field dists with
        | Except.error e => Except.error e
        | Except.ok f =>
            Except.ok (f, [RasterEvent.contourRead, RasterEvent.fieldWrite])

/-- The field an object exposes after a method call: unchanged when the call
raised, the returned value when it succeeded. -/
def fieldAfter (old : ℚ) : Except String ℚ → ℚ
  | Except.error _ => old
  | Except.ok f => f

/-- A raster window (origin, size), as in `rasterio.windows.Window`. -/
structure Window where
  col_off : Nat
  row_off : Nat
  width : Nat
  height : Nat
deriving DecidableEq, Repr

/-- `HfunRaster.msh_t` window selection (hfun/raster.py lines 75–84): with no
explicit window the full window iterator is used, and more than one window
raises `NotImplementedError` before any processing; on success the processed
window list is returned. -/
def msh_t (windows : List Window) (window? : Option Window) :
    Except String (List Window) :=
  let iter_windows := match window? with
    | none => windows
    | some w => [w]
  if iter_windows.length > 1 then
    Except.error "iter_windows > 1, need to collect hfuns"
  else
    Except.ok iter_windows

/-! ### Feature resampling — `transform_features` (hfun/raster.py 459–482) -/

/-- The arc-length stations of `transform_features`' resampling loop:
`while distances[-1] + target_size < linestring.length:` append
`distances[-1] + target_size`; afterwards append `linestring.length`.
`fuel` bounds the iteration count; exhaustion returns `none` (the Python
loop has no such bound, so every theorem first shows the chosen fuel
suffices). -/
def resampleLoop (target_size L : ℚ) : Nat → ℚ → Option (List ℚ)
  | 0, d => if d + target_size < L then none else some [d, L]
  | fuel + 1, d =>
    if d + target_size < L then
      match resampleLoop target_size L fuel (d + target_size) with
      | none => none
      | some rest => some (d :: rest)
    else
      some [d, L]

/-- The full station list of one linestring's resampling: the loop started
from `distances = [0.]`. -/
def resampleDistances (target_size L : ℚ) : Option (List ℚ) :=
  resampleLoop target_size L (Nat.ceil (L / target_size) + 1) 0

/-! ## Boundary-topology extraction —
`UnstructuredMesh.compute_planar_straight_line_graph` (mesh.py 144–177) -/

/-- The `j`-th directed local edge of a triangle:
`(triangles[i, j], triangles[i, (j+1) % 3])` (mesh.py 149–150). -/
def localEdge (t : Nat × Nat × Nat) : Nat → Nat × Nat
  | 0 => (t.1, t.2.1)
  | 1 => (t.2.1, t.2.2)
  | _ => (t.2.2, t.1)

/-- The `j`-th entry of a triangle's `mpl_tri.neighbors` row
(`-1` = no neighbor across that edge). -/
def neighborAt (nb : Int × Int × Int) : Nat → Int
  | 0 => nb.1
  | 1 => nb.2.1
  | _ => nb.2.2

/-- The boundary-edge pool `unique_edges` (mesh.py 145–150): every local edge
whose opposite neighbor is the `-1` sentinel, in triangle-then-edge order. -/
def uniqueEdges (tris : List (Nat × Nat × Nat))
    (nbrs : List (Int × Int × Int)) : List (Nat × Nat) :=
  ((tris.zip nbrs).map (fun tn =>
    (List.range 3).filterMap (fun j =>
      if neighborAt tn.2 j = -1 then some (localEdge tn.1 j) else none))).flatten

/-- `np.where(ring[-1][1] == pool[:, 0])` followed by `pool.pop(idx[0][0])`
(mesh.py 155–157): remove and return the first pool edge whose start vertex
equals `target`; `none` models the `IndexError` when no such edge exists. -/
def popFirstMatch (target : Nat) :
    List (Nat × Nat) → Option ((Nat × Nat) × List (Nat × Nat))
  | [] => none
  | e :: rest =>
    if e.1 = target then some (e, rest)
    else
      match popFirstMatch target rest with
      | none => none
      | some (f, rem) => some (f, e :: rem)

/-- The edge-chaining `while` loop (mesh.py 154–160).  State: the remaining
pool, the last edge of the current ring (`ring[-1]`), the earlier edges of the
current ring in reverse, and the completed rings.  On a continuation the
matching edge is consumed; otherwise the current ring is closed and a new one
is seeded from `pool.pop(0)`.  When the pool empties the loop exits and the
ring in progress is **not** appended — exactly as in the source.  `fuel`
bounds the iterations (the pool shrinks by one per step, so
`fuel = pool.length` always suffices); exhaustion returns `none`. -/
def chainLoop : Nat → List (Nat × Nat) → (Nat × Nat) → List (Nat × Nat) →
    List (List (Nat × Nat)) → Option (List (List (Nat × Nat)))
  | _, [], _cur, _ringRest, acc => some acc
  | 0, _ :: _, _, _, _ => none
  | fuel + 1, e :: rest, cur, ringRest, acc =>
    match popFirstMatch cur.2 (e :: rest) with
    | some (f, rem) => chainLoop fuel rem f (cur :: ringRest) acc
    | none => chainLoop fuel rest e [] (acc ++ [(cur :: ringRest).reverse])

/-- The `ring_collection` computed by
`compute_planar_straight_line_graph` (mesh.py 151–160): seed the first ring
with `unique_edges.pop(0)` (`none` models the `IndexError` on an empty pool)
and run the chaining loop. -/
def computeRingCollection (tris : List (Nat × Nat × Nat))
    (nbrs : List (Int × Int × Int)) : Option (List (List (Nat × Nat))) :=
  match uniqueEdges tris nbrs with
  | [] => none
  | e :: rest => chainLoop rest.length rest e [] []

/-- `compute_planar_straight_line_graph` (mesh.py 144–177) up to the
outer/inner split: ring lengths are delegated to the external `ogr`
`Length()` collaborator (`ringLength`); `np.max` over an empty length list
raises `ValueError` (`none`), otherwise the first ring attaining the maximal
length is popped as `outer_edges` and the rest remain `inner_edges`. -/
def compute_planar_straight_line_graph (tris : List (Nat × Nat × Nat))
    (nbrs : List (Int × Int × Int))
    (ringLength : List (Nat × Nat) → ℚ) :
    Option (List (Nat × Nat) × List (List (Nat × Nat))) :=
  match computeRingCollection tris nbrs with
  | none => none
  | some rc =>
    let lengths := rc.map ringLength
    match lengths.max? with
    | none => none
    | some M =>
      let idx := lengths.findIdx (fun v => decide (v = M))
      some (rc.getD idx [], rc.eraseIdx idx)

/-! ## Mesh boundary model and serialization — mesh.py -/

/-- `UnstructuredMesh.node_id` (mesh.py 289–293): `np.arange(1, n+1)`, whose
`i`-th entry (0-based `i`) is `i + 1`. -/
def node_id (i : Nat) : Nat := i + 1

/-- `UnstructuredMesh.element_id` (mesh.py 295–299): `np.arange(1, n+1)`. -/
def element_id (i : Nat) : Nat := i + 1

/-- The numeric fields of the `i`-th node record of the `gr3` serialization
(mesh.py 435–439): `({:d} of node_id[i]+1, x[i], y[i], -values[i])`. -/
def gr3NodeLine (x y v : ℚ) (i : Nat) : Nat × ℚ × ℚ × ℚ :=
  (node_id i + 1, x, y, -v)

/-- The numeric fields of the `i`-th element record of the `gr3` serialization
(mesh.py 440–445): `(element_id[i]+1, 3, e0+1, e1+1, e2+1)`. -/
def gr3ElementLine (e : Nat × Nat × Nat) (i : Nat) :
    Nat × Nat × Nat × Nat × Nat :=
  (element_id i + 1, 3, e.1 + 1, e.2.1 + 1, e.2.2 + 1)

/-- `UnstructuredMesh._values` setter (mesh.py 596–602): `None` becomes
`np.full((num_vertices,), np.nan)` (NaN = `none`); otherwise the assertion
`values.shape[0] == self.vertices.shape[0]` must hold. -/
def setValues (values? : Option (List (Option ℚ))) (numVertices : Nat) :
    Except String (List (Option ℚ)) :=
  match values? with
  | none => Except.ok (List.replicate numVertices none)
  | some vs =>
    if vs.length = numVertices then Except.ok vs
    else Except.error "AssertionError"

/-- `UnstructuredMesh.has_invalid` (mesh.py 179–180):
`np.any(np.isnan(self.values))`. -/
def has_invalid (values : List (Option ℚ)) : Bool :=
  values.any (fun v => v.isNone)

/-! ## Ring reconstruction — `get_multipolygon_from_axes`
(geom/raster.py 166–202) -/

/-- The min-merge never increases the field. -/
theorem applyFeatures_le_init (hm hM : Option ℚ) (f : ℚ) (cs : List ℚ) :
    applyFeatures hm hM f cs ≤ f := by
  induction cs generalizing f with
  | nil => simp [applyFeatures]
  | cons c cs ih =>
    calc applyFeatures hm hM f (c :: cs)
        = applyFeatures hm hM (applyFeature hm hM f c) cs := rfl
      _ ≤ applyFeature hm hM f c := ih _
      _ ≤ f := min_le_left _ _

/-- The merged field is bounded by each merged constraint's clamped value. -/
theorem applyFeatures_le_clamp (hm hM : Option ℚ) (f : ℚ) {c : ℚ}
    {cs : List ℚ} (hc : c ∈ cs) :
    applyFeatures hm hM f cs ≤ clampField hm hM c := by
  induction cs generalizing f with
  | nil => cases hc
  | cons d ds ih =>
    rcases List.mem_cons.mp hc with h | h
    · subst h
      calc applyFeatures hm hM f (c :: ds)
          = applyFeatures hm hM (applyFeature hm hM f c) ds := rfl
        _ ≤ applyFeature hm hM f c := applyFeatures_le_init _ _ _ _
        _ ≤ clampField hm hM c := min_le_right _ _
    · exact ih _ h

/-- A configured `hmax` caps every clamped value. -/
theorem clampField_le_hmax (hm : Option ℚ) (M v : ℚ) :
    clampField hm (some M) v ≤ M := by
  cases hm <;> simp only [clampField] <;> split_ifs <;> linarith

/-- A configured `hmin` floors every clamped value, provided `hmin ≤ hmax`
when `hmax` is also configured. -/
theorem hmin_le_clampField (m : ℚ) (hM : Option ℚ) (v : ℚ)
    (h : ∀ M, hM = some M → m ≤ M) :
    m ≤ clampField (some m) hM v := by
  cases hM with
  | none => simp only [clampField]; split_ifs <;> linarith
  | some M =>
    have hmM := h M rfl
    simp only [clampField]; split_ifs <;> linarith

/-- Lower bound of the fold from a common lower bound of the inputs. -/
theorem le_applyFeatures (hm hM : Option ℚ) (m f : ℚ) (cs : List ℚ)
    (hf : m ≤ f) (hc : ∀ c, m ≤ clampField hm hM c) :
    m ≤ applyFeatures hm hM f cs := by
  induction cs generalizing f with
  | nil => simpa [applyFeatures] using hf
  | cons c cs ih => exact ih _ (le_min hf (hc c))

/-- With both bounds configured (`hmin ≤ hmax`), a start value above `hmin`
and at least one merged constraint, the field lands in `[hmin, hmax]`. -/
theorem applyFeatures_bounds (m M f : ℚ) (cs : List ℚ)
    (hmM : m ≤ M) (hmf : m ≤ f) (hne : cs ≠ []) :
    m ≤ applyFeatures (some m) (some M) f cs
    ∧ applyFeatures (some m) (some M) f cs ≤ M := by
  constructor
  · exact le_applyFeatures _ _ _ _ _ hmf
      (fun c => hmin_le_clampField m (some M) c (fun M' hM' => by
        cases hM'; exact hmM))
  · cases cs with
    | nil => exact absurd rfl hne
    | cons c cs' =>
      exact le_trans
        (applyFeatures_le_clamp _ _ _ (List.mem_cons_self c cs'))
        (clampField_le_hmax _ _ _)

/-! ## Claim theorems -/

/-- C3, counterexample to the claim as stated: with `hmin = 2`, `hmax = 10`
configured, a single feature constraint whose unclamped candidate at a cell
is `1·1·0 + 1 = 1` leaves the field at `2` (the hmin clamp raised the
candidate), so the field is **not** ≤ the constraint's unclamped
candidate. -/
theorem size_field_unclamped_bound_fails :
    ¬ applyFeatures (some 2) (some 10) initialFieldValue
        [unclampedCandidate 1 1 0] ≤ unclampedCandidate 1 1 0 := by
  norm_num [applyFeatures, applyFeature, clampField, unclampedCandidate,
    initialFieldValue]

/-- C3 (amended): after any finite sequence of `add_feature`/`add_contour`
merges, the field at every cell is ≤ every individual constraint's
**clamped** candidate (`clampField` applied in the code's order — the hmin
clamp can raise a candidate above its unclamped value), the field never
increases, and `hmin ≤ field ≤ hmax` holds whenever both bounds are
configured with `hmin ≤ hmax`, the prior field is ≥ `hmin`, and at least one
constraint has been merged. -/
theorem size_field_invariant (hm hM : Option ℚ) (f : ℚ) (cs : List ℚ) :
    (∀ c ∈ cs, applyFeatures hm hM f cs ≤ clampField hm hM c)
    ∧ applyFeatures hm hM f cs ≤ f
    ∧ (∀ m M, hm = some m → hM = some M → m ≤ M → m ≤ f → cs ≠ [] →
        m ≤ applyFeatures hm hM f cs ∧ applyFeatures hm hM f cs ≤ M) := by
  refine ⟨fun c hc => applyFeatures_le_clamp _ _ _ hc,
    applyFeatures_le_init _ _ _ _, ?_⟩
  intro m M hm' hM' hmM hmf hne
  cases hm'
  cases hM'
  exact applyFeatures_bounds m M f cs hmM hmf hne

/-- Witness for C3's amended theorem at `hmin = 1`, `hmax = 10`, the
float32-max initial sentinel and one constraint. -/
theorem size_field_invariant_witness :
    1 ≤ applyFeatures (some 1) (some 10) initialFieldValue [3]
    ∧ applyFeatures (some 1) (some 10) initialFieldValue [3] ≤ 10 :=
  (size_field_invariant (some 1) (some 10) initialFieldValue [3]).2.2 1 10
    rfl rfl (by norm_num) (by norm_num [initialFieldValue]) (by simp)

/-- C4: two feature constraints merge to the same field in either order,
that field is the elementwise min of the fields obtained from each
constraint alone, and it lies in `[hmin, hmax]` whenever both bounds are
configured with `hmin ≤ hmax` and the prior field is ≥ `hmin` (exact
rational arithmetic; the floating-point reassociation caveat of the claim
is the model). -/
theorem add_feature_min_law (hm hM : Option ℚ) (f a b : ℚ) :
    applyFeatures hm hM f [a, b] = applyFeatures hm hM f [b, a]
    ∧ applyFeatures hm hM f [a, b]
        = min (applyFeatures hm hM f [a]) (applyFeatures hm hM f [b])
    ∧ (∀ m M, hm = some m → hM = some M → m ≤ M → m ≤ f →
        m ≤ applyFeatures hm hM f [a, b]
        ∧ applyFeatures hm hM f [a, b] ≤ M) := by
  refine ⟨?_, ?_, ?_⟩
  · simp only [applyFeatures, List.foldl, applyFeature]
    exact min_right_comm f (clampField hm hM a) (clampField hm hM b)
  · simp only [applyFeatures, List.foldl, applyFeature]
    rw [min_assoc, inf_inf_distrib_left]
  · intro m M hm' hM' hmM hmf
    cases hm'
    cases hM'
    exact applyFeatures_bounds m M f [a, b] hmM hmf (by simp)

/-- Witness for C4 at `hmin = 1`, `hmax = 5`, the float32-max initial
sentinel and candidates `2`, `3`. -/
theorem add_feature_min_law_witness :
    1 ≤ applyFeatures (some 1) (some 5) initialFieldValue [2, 3]
    ∧ applyFeatures (some 1) (some 5) initialFieldValue [2, 3] ≤ 5 :=
  (add_feature_min_law (some 1) (some 5) initialFieldValue 2 3).2.2 1 5
    rfl rfl (by norm_num) (by norm_num [initialFieldValue])

/-- With enough fuel the resampling loop terminates and its station list
starts at the walk's start, ends exactly at the line's length, and has
consecutive gaps in `(0, s]`. -/
theorem resampleLoop_sound (s L : ℚ) (hs : 0 < s) :
    ∀ (fuel : Nat) (d : ℚ), d < L → L ≤ d + ((fuel : ℚ) + 1) * s →
      ∃ ds, resampleLoop s L fuel d = some ds
        ∧ ds.head? = some d
        ∧ ds.getLast? = some L
        ∧ List.Chain' (fun a b => a ≤ b ∧ b - a ≤ s) ds := by
  intro fuel
  induction fuel with
  | zero =>
    intro d hdL hle
    have hcond : ¬ d + s < L := by push_cast at hle; push_neg; linarith
    refine ⟨[d, L], by simp [resampleLoop, hcond], rfl, rfl, ?_⟩
    simp only [List.chain'_cons, List.chain'_singleton, and_true]
    constructor
    · exact hdL.le
    · linarith [not_lt.mp hcond]
  | succ n ih =>
    intro d hdL hle
    by_cases hcond : d + s < L
    · obtain ⟨ds, hds, hhead, hlast, hchain⟩ :=
        ih (d + s) hcond (by push_cast at hle ⊢; linarith)
      refine ⟨d :: ds, ?_, rfl, ?_, ?_⟩
      · simp [resampleLoop, hcond, hds]
      · cases ds with
        | nil => simp at hhead
        | cons e es => simpa [List.getLast?_cons_cons] using hlast
      · rw [List.chain'_cons']
        refine ⟨?_, hchain⟩
        intro b hb
        rw [hhead, Option.mem_some_iff] at hb
        subst hb
        constructor <;> linarith
    · refine ⟨[d, L], by simp [resampleLoop, hcond], rfl, rfl, ?_⟩
      simp only [List.chain'_cons, List.chain'_singleton, and_true]
      exact ⟨hdL.le, by linarith [not_lt.mp hcond]⟩

/-- C5: resampling a line of positive length `L` at spacing `s > 0` yields
a station list starting at arc length `0`, ending exactly at `L` (the
line's terminal point), with consecutive stations monotone and at most `s`
apart. -/
theorem transform_features_resampling (s L : ℚ) (hs : 0 < s) (hL : 0 < L) :
    ∃ ds, resampleDistances s L = some ds
      ∧ ds.head? = some 0
      ∧ ds.getLast? = some L
      ∧ List.Chain' (fun a b => a ≤ b ∧ b - a ≤ s) ds := by
  have hceil : L / s ≤ ((Nat.ceil (L / s) : ℕ) : ℚ) := Nat.le_ceil _
  have hLs : L ≤ ((Nat.ceil (L / s) : ℕ) : ℚ) * s := by
    calc L = (L / s) * s := by field_simp
      _ ≤ ((Nat.ceil (L / s) : ℕ) : ℚ) * s :=
        mul_le_mul_of_nonneg_right hceil hs.le
  refine resampleLoop_sound s L hs (Nat.ceil (L / s) + 1) 0 hL ?_
  push_cast
  nlinarith

/-- Witness for C5 at `s = 1`, `L = 5/2`: the loop emits `[0, 1, 2, 5/2]`. -/
theorem transform_features_resampling_witness :
    resampleDistances 1 (5/2) = some [0, 1, 2, 5/2]
    ∧ ∃ ds, resampleDistances 1 (5/2) = some ds
        ∧ ds.head? = some 0
        ∧ ds.getLast? = some (5/2)
        ∧ List.Chain' (fun a b => a ≤ b ∧ b - a ≤ 1) ds :=
  ⟨by
    rw [resampleDistances, show Nat.ceil ((5 : ℚ)/2 / 1) = 3 from by
      rw [Nat.ceil_eq_iff (by norm_num)]; norm_num]
    norm_num [resampleLoop],
   transform_features_resampling 1 (5/2) (by norm_num) (by norm_num)⟩

/-- C8: `add_contour` with neither a `target_size` argument nor a configured
global `hmin` fails with the invalid-argument error before any raster I/O
(the error result carries no raster events), and any `add_feature` or
`add_contour` call whose resolved `target_size` is ≤ 0 is rejected with an
invalid-argument error, leaving the field unchanged. -/
theorem add_contour_validation (hm hM : Option ℚ) (er f ts : ℚ)
    (cd : Option (List ℚ)) (dists : List ℚ) (hts : ts ≤ 0) :
    add_contour none hM none er f cd
      = Except.error
        "Argument target_size must be specified if no global hmin has been set."
    ∧ add_feature hm hM ts er f dists
      = Except.error "Argument target_size must be > 0."
    ∧ fieldAfter f (add_feature hm hM ts er f dists) = f
    ∧ add_contour hm hM (some ts) er f cd
      = Except.error "Argument target_size must be greater than zero." := by
  refine ⟨rfl, ?_, ?_, ?_⟩
  · simp [add_feature, hts]
  · simp [fieldAfter, add_feature, hts]
  · simp [add_contour, hts]

/-- Witness for C8 at `target_size = 0` with no bounds configured. -/
theorem add_contour_validation_witness :
    add_contour none none none 1 5 none
      = Except.error
        "Argument target_size must be specified if no global hmin has been set."
    ∧ add_feature none none 0 1 5 []
      = Except.error "Argument target_size must be > 0."
    ∧ fieldAfter 5 (add_feature none none 0 1 5 []) = 5
    ∧ add_contour none none (some 0) 1 5 none
      = Except.error "Argument target_size must be greater than zero." :=
  add_contour_validation none none 1 5 0 none [] (le_refl 0)

/-- C9: a size-function `msh_t` call with no explicit window over more than
one raster window fails with the explicit `NotImplementedError` and returns
no partial result. -/
theorem msh_t_multiwindow (ws : List Window) (hws : 1 < ws.length) :
    msh_t ws none = Except.error "iter_windows > 1, need to collect hfuns" := by
  simp [msh_t, hws]

/-- Witness for C9 with two concrete windows. -/
theorem msh_t_multiwindow_witness :
    msh_t [⟨0, 0, 1, 1⟩, ⟨1, 0, 1, 1⟩] none
      = Except.error "iter_windows > 1, need to collect hfuns" :=
  msh_t_multiwindow [⟨0, 0, 1, 1⟩, ⟨1, 0, 1, 1⟩] (by decide)

/-- C10, counterexample to the claim as stated: a mesh constructed with
zero vertices and `values=None` gets the empty all-NaN array, on which
`has_invalid()` returns `False`, not `True`. -/
theorem values_none_empty_mesh :
    setValues none 0 = Except.ok []
    ∧ has_invalid [] = false := ⟨rfl, rfl⟩

/-- C10 (amended): constructing with `values=None` yields a per-vertex array
of length `num_vertices` with every entry NaN; `has_invalid()` is `True` on
such a mesh provided it has at least one vertex; and for every mesh
`has_invalid()` is `True` exactly when some per-vertex value is NaN. -/
theorem values_default_nan (n : Nat) :
    setValues none n = Except.ok (List.replicate n (none : Option ℚ))
    ∧ (List.replicate n (none : Option ℚ)).length = n
    ∧ (∀ v ∈ List.replicate n (none : Option ℚ), v = none)
    ∧ (0 < n → has_invalid (List.replicate n none) = true)
    ∧ (∀ vals : List (Option ℚ),
        has_invalid vals = true ↔ ∃ v ∈ vals, v = none) := by
  refine ⟨rfl, List.length_replicate n none, ?_, ?_, ?_⟩
  · intro v hv
    exact List.eq_of_mem_replicate hv
  · intro hn
    have hmem : (none : Option ℚ) ∈ List.replicate n none :=
      List.mem_replicate.mpr ⟨Nat.pos_iff_ne_zero.mp hn, rfl⟩
    simp only [has_invalid, List.any_eq_true]
    exact ⟨none, hmem, rfl⟩
  · intro vals
    simp [has_invalid, List.any_eq_true, Option.isNone_iff_eq_none]

/-- Witness for C10's amended theorem at one vertex. -/
theorem values_default_nan_witness :
    has_invalid (List.replicate 1 (none : Option ℚ)) = true :=
  (values_default_nan 1).2.2.2.1 (by decide)

/-- C1: on a single triangle whose adjacency row is all `-1`, the boundary
extraction collects the three directed edges, but the chaining loop ends
with an **empty** ring collection (the in-progress ring is never appended
when the pool empties), and the subsequent `np.max` over the empty length
list raises — no `BoundaryRing` is ever produced, contradicting the claimed
single closed ring. -/
theorem pslg_single_triangle_no_ring :
    uniqueEdges [(0, 1, 2)] [(-1, -1, -1)] = [(0, 1), (1, 2), (2, 0)]
    ∧ computeRingCollection [(0, 1, 2)] [(-1, -1, -1)] = some []
    ∧ compute_planar_straight_line_graph [(0, 1, 2)] [(-1, -1, -1)]
        (fun _ => 0) = none := by
  refine ⟨by decide, by decide, ?_⟩
  rw [compute_planar_straight_line_graph,
    show computeRingCollection [(0, 1, 2)] [(-1, -1, -1)] = some []
      from by decide]
  rfl

/-- C2: the first node record of the `gr3` serialization leads with
`node_id[0] + 1 = 2`, not the 1-based id `1` (and likewise the first
element record), because `node_id`/`element_id` are already the 1-based
`np.arange(1, n+1)` and the writer adds 1 again. -/
theorem gr3_record_ids_shifted :
    gr3NodeLine 0 0 0 0 = (2, 0, 0, 0)
    ∧ (gr3NodeLine 0 0 0 0).1 ≠ 1
    ∧ gr3ElementLine (0, 1, 2) 0 = (2, 3, 1, 2, 3)
    ∧ (gr3ElementLine (0, 1, 2) 0).1 ≠ 1 := by
  refine ⟨by norm_num [gr3NodeLine, node_id], by decide, by decide, by decide⟩
